import Mathlib

/-
Verification of the reaction / analytics core of the social_network backend.

The definitions below are a shallow embedding of the Python source:
  * src/src/database/models.py      (Post, PostReaction and their constraints)
  * src/src/repository/posts.py     (get_post_reaction, get_post_by_id,
                                     update_or_create_reaction, like_post, dislike_post)
  * src/src/routes/posts.py         (the IntegrityError handling around like/dislike)
  * src/src/repository/analytics.py (get_post_analytics)
  * src/src/routes/analytics.py     (get_post_likes_dislikes)

The persistent store is modelled as explicit lists of rows; machine details that
the claims do not touch (string ids, ORM sessions) stay as plain Lean data.
-/

namespace SocialNetwork
/-- messages.py: detail string for a missing post. -/
def POST_NOT_FOUND : String := "Post not found"

/-- messages.py: detail string when the user already liked the post. -/
def ALREADY_LIKED : String := "User has already liked this post"

/-- messages.py: detail string when the user already disliked the post. -/
def ALREADY_UNLIKED : String := "User has already unliked this post"

/-- messages.py: detail string of the analytics ownership check. -/
def NOT_ACCESS_ANALYTICS : String := "Unauthorized access: User does not own the post."

/-- messages.py: detail string for a reversed date range. -/
def INVALID_DATE_RANGE : String := "date_from must be before date_to"

/-- A timestamp: calendar day index plus seconds past midnight.  In SQL a bare
date coerces to the midnight instant of its day, which is how the analytics
query compares `created_at` with `date_from` / `date_to`. -/
structure Timestamp where
  day : Nat
  sec : Nat
deriving DecidableEq, Repr

/-- Timestamp comparison, as the database orders datetime values. -/
def Timestamp.le (a b : Timestamp) : Bool :=
  a.day < b.day || (a.day == b.day && a.sec ≤ b.sec)

/-- A SQL date value used as a timestamp bound: the midnight instant. -/
def dateToTs (d : Nat) : Timestamp := ⟨d, 0⟩

/-- SQL date(created_at): the calendar day of a timestamp. -/
def dateOf (t : Timestamp) : Nat := t.day

/-- models.py User (only the id matters for the reaction/analytics core). -/
structure User where
  id : Nat
deriving DecidableEq, Repr

/-- models.py Post: content, denormalized like/dislike counters, owner. -/
structure Post where
  id : Nat
  post : String
  likes : Int
  dislikes : Int
  created_at : Timestamp
  user_id : Nat
deriving DecidableEq, Repr

/-- models.py PostReaction: one row per reaction, reaction is the string
'like' or 'dislike', with a unique constraint on (post_id, user_id). -/
structure PostReaction where
  id : Nat
  post_id : Nat
  user_id : Nat
  reaction : String
  created_at : Timestamp
  updated_at : Timestamp
deriving DecidableEq, Repr

/-- The persistent store: the posts and post_reactions tables, the reaction
autoincrement counter, and the clock used for created_at defaults. -/
structure DB where
  posts : List Post
  reactions : List PostReaction
  next_reaction_id : Nat
  now : Timestamp
deriving DecidableEq, Repr

/-- Failure outcomes: an HTTPException with status and detail, or a raw
IntegrityError raised by the persistence layer (the unique-key
ConstraintViolation) before the route layer turns it into a response. -/
inductive ApiError where
  | http (status : Nat) (detail : String)
  | integrityError
deriving DecidableEq, Repr

instance {ε α : Type} [DecidableEq ε] [DecidableEq α] : DecidableEq (Except ε α) :=
  fun x y => by
    cases x with
    | ok a =>
      cases y with
      | ok b => exact decidable_of_iff (a = b) (by simp)
      | error f => exact isFalse (by simp)
    | error e =>
      cases y with
      | ok b => exact isFalse (by simp)
      | error f => exact decidable_of_iff (e = f) (by simp)

/-- repository/posts.py get_post_reaction: first row of the post_reactions
table with the given user_id and post_id. -/
def get_post_reaction (post_id user_id : Nat) (db : DB) : Option PostReaction :=
  db.reactions.find? fun r => r.user_id == user_id && r.post_id == post_id

/-- repository/posts.py get_post_by_id: the row of the posts table with the
given primary key. -/
def get_post_by_id (post_id : Nat) (db : DB) : Option Post :=
  db.posts.find? fun p => p.id == post_id

/-- repository/posts.py update_or_create_reaction.  Returns the pending
session state: the reactions table after the statement, the mutated Post
object, and the freshly inserted row when the create branch ran (the unique
constraint on it is checked at commit time).  Note that the create branch
keys the new row by post.user_id - the post owner - exactly as the source
does. -/
def update_or_create_reaction (reaction : Option PostReaction) (new_reaction : String)
    (post : Post) (db : DB) : List PostReaction × Post × Option PostReaction :=
  match reaction with
  | some r =>
      let reactions := db.reactions.map fun x =>
        if x.id == r.id then { x with reaction := new_reaction, updated_at := db.now } else x
      let post2 := if new_reaction == "like" then
          { post with likes := post.likes + 1, dislikes := post.dislikes - 1 }
        else
          { post with likes := post.likes - 1, dislikes := post.dislikes + 1 }
      (reactions, post2, none)
  | none =>
      let row : PostReaction :=
        { id := db.next_reaction_id, post_id := post.id, user_id := post.user_id,
          reaction := new_reaction, created_at := db.now, updated_at := db.now }
      let post2 := if new_reaction == "like" then { post with likes := post.likes + 1 }
        else { post with dislikes := post.dislikes + 1 }
      (db.reactions ++ [row], post2, some row)

/-- db.commit() for a like/dislike call: flush the pending changes.  A newly
inserted reaction must satisfy the unique (post_id, user_id) constraint,
otherwise the commit raises IntegrityError and the transaction is rolled
back (the store is left as it was). -/
def commit_reaction (db : DB) (reactions : List PostReaction) (post : Post)
    (inserted : Option PostReaction) : Except ApiError DB :=
  match inserted with
  | some row =>
      if db.reactions.any (fun x => x.post_id == row.post_id && x.user_id == row.user_id) then
        .error .integrityError
      else
        .ok { db with reactions := reactions,
                      posts := db.posts.map (fun p => if p.id == post.id then post else p),
                      next_reaction_id := db.next_reaction_id + 1 }
  | none =>
      .ok { db with reactions := reactions,
                    posts := db.posts.map (fun p => if p.id == post.id then post else p) }

/-- repository/posts.py like_post: read the reaction and the post, reject a
repeated like, otherwise update or create the reaction and commit. -/
def like_post (post_id : Nat) (user : User) (db : DB) : Except ApiError DB :=
  let existing := get_post_reaction post_id user.id db
  match get_post_by_id post_id db with
  | none => .error (.http 404 POST_NOT_FOUND)
  | some post =>
    if (match existing with | some r => r.reaction == "like" | none => false) then
      .error (.http 400 ALREADY_LIKED)
    else
      let t := update_or_create_reaction existing "like" post db
      commit_reaction db t.1 t.2.1 t.2.2

/-- repository/posts.py dislike_post: as like_post with the opposite kind. -/
def dislike_post (post_id : Nat) (user : User) (db : DB) : Except ApiError DB :=
  let existing := get_post_reaction post_id user.id db
  match get_post_by_id post_id db with
  | none => .error (.http 404 POST_NOT_FOUND)
  | some post =>
    if (match existing with | some r => r.reaction == "dislike" | none => false) then
      .error (.http 400 ALREADY_UNLIKED)
    else
      let t := update_or_create_reaction existing "dislike" post db
      commit_reaction db t.1 t.2.1 t.2.2

/-- routes/posts.py like_post: the route wraps the repository call in
`try ... except IntegrityError` and answers 400 ALREADY_LIKED on the
constraint violation. -/
def like_post_route (post_id : Nat) (user : User) (db : DB) : Except ApiError DB :=
  match like_post post_id user db with
  | .error .integrityError => .error (.http 400 ALREADY_LIKED)
  | r => r

/-- routes/posts.py unlike_post: same wrapper around dislike_post. -/
def dislike_post_route (post_id : Nat) (user : User) (db : DB) : Except ApiError DB :=
  match dislike_post post_id user db with
  | .error .integrityError => .error (.http 400 ALREADY_UNLIKED)
  | r => r

/-- The two reaction kinds of the spec's applyReaction. -/
inductive ReactionKind where
  | like
  | dislike
deriving DecidableEq, Repr

/-- The string the source stores for each kind. -/
def kindStr : ReactionKind → String
  | .like => "like"
  | .dislike => "dislike"

/-- The already-reacted message for each kind. -/
def alreadyMsg : ReactionKind → String
  | .like => ALREADY_LIKED
  | .dislike => ALREADY_UNLIKED

/-- The spec's applyReaction: the like or dislike route handler. -/
def applyReaction (k : ReactionKind) (post_id : Nat) (user : User) (db : DB) :
    Except ApiError DB :=
  match k with
  | .like => like_post_route post_id user db
  | .dislike => dislike_post_route post_id user db

/-- One requested reaction call in a sequence. -/
structure Call where
  kind : ReactionKind
  post_id : Nat
  user_id : Nat
deriving DecidableEq, Repr

/-- Run one call; a failed call leaves the persisted store unchanged. -/
def runCall (db : DB) (c : Call) : DB :=
  match applyReaction c.kind c.post_id ⟨c.user_id⟩ db with
  | .ok db2 => db2
  | .error _ => db

/-- Run a sequence of like/dislike calls. -/
def runCalls (db : DB) (cs : List Call) : DB := cs.foldl runCall db

/-- One output row of the analytics query. -/
structure AnalyticsRow where
  date : Nat
  likes : Nat
  dislikes : Nat
deriving DecidableEq, Repr

/-- SQL COUNT over an expression: the number of rows where the expression is
non-NULL. -/
def sqlCount (rows : List PostReaction) (expr : PostReaction → Option Nat) : Nat :=
  (rows.filter fun r => (expr r).isSome).length

/-- SQL CASE WHEN reaction = k THEN 1 ELSE 0 END: never NULL. -/
def caseKind (k : String) (r : PostReaction) : Option Nat :=
  if r.reaction == k then some 1 else some 0

/-- repository/analytics.py get_post_analytics: owner check (scalar_one_or_none,
so a missing post gives owner = none), then filter the reactions of the post
by raw created_at against the two date bounds, group by date(created_at) and
emit COUNT(CASE reaction = like THEN 1 ELSE 0) and the same for dislike. -/
def get_post_analytics (post_id : Nat) (date_from date_to : Nat) (user : User) (db : DB) :
    Except ApiError (List AnalyticsRow) :=
  let owner := (db.posts.find? fun p => p.id == post_id).map Post.user_id
  if owner ≠ some user.id then
    .error (.http 400 NOT_ACCESS_ANALYTICS)
  else
    let rows := db.reactions.filter fun r =>
      r.post_id == post_id && Timestamp.le (dateToTs date_from) r.created_at
        && Timestamp.le r.created_at (dateToTs date_to)
    let days := (rows.map fun r => dateOf r.created_at).dedup
    .ok (days.map fun d =>
      let grp := rows.filter fun r => dateOf r.created_at == d
      { date := d, likes := sqlCount grp (caseKind "like"),
        dislikes := sqlCount grp (caseKind "dislike") })

/-- routes/analytics.py get_post_likes_dislikes: reject a reversed range with
400 INVALID_DATE_RANGE before calling the repository. -/
def get_post_likes_dislikes (post_id : Nat) (start_date end_date : Nat) (user : User)
    (db : DB) : Except ApiError (List AnalyticsRow) :=
  if end_date < start_date then
    .error (.http 400 INVALID_DATE_RANGE)
  else
    get_post_analytics post_id start_date end_date user db

/-- The date column of each emitted analytics row (the day buckets). -/
def analyticsDays (post_id date_from date_to : Nat) (user : User) (db : DB) :
    Except ApiError (List Nat) :=
  (get_post_analytics post_id date_from date_to user db).map fun rows =>
    rows.map AnalyticsRow.date

/-! Inversion equations for like_post and dislike_post. -/

/-- The store after the flip branch commits: the matched reaction row gets the
new kind and a fresh updated_at, the post row gets the adjusted counters. -/
def flipResult (db : DB) (rid : Nat) (s : String) (post2 : Post) : DB :=
  { db with
    reactions := db.reactions.map fun x =>
      if x.id == rid then { x with reaction := s, updated_at := db.now } else x,
    posts := db.posts.map fun p => if p.id == post2.id then post2 else p }

/-- The row the create branch inserts: keyed by the post owner, as the source
does. -/
def newRow (db : DB) (post : Post) (s : String) : PostReaction :=
  ⟨db.next_reaction_id, post.id, post.user_id, s, db.now, db.now⟩

/-- The store after the create branch commits. -/
def insertResult (db : DB) (row : PostReaction) (post2 : Post) : DB :=
  { db with
    reactions := db.reactions ++ [row],
    posts := db.posts.map fun p => if p.id == post2.id then post2 else p,
    next_reaction_id := db.next_reaction_id + 1 }

/-! The store invariants the database schema enforces, and the counter
invariant of the spec. -/

/-- Schema well-formedness: posts and reactions have distinct primary keys,
the unique (post_id, user_id) constraint of post_reactions holds, and the
autoincrement counter is ahead of every reaction id. -/
def WF (db : DB) : Prop :=
  (db.posts.map Post.id).Nodup
  ∧ (db.reactions.map PostReaction.id).Nodup
  ∧ (db.reactions.map fun r => (r.post_id, r.user_id)).Nodup
  ∧ ∀ r ∈ db.reactions, r.id < db.next_reaction_id

instance (db : DB) : Decidable (WF db) := by
  unfold WF
  infer_instance

/-- Number of reaction rows of the given post with the given kind. -/
def reactionCount (db : DB) (pid : Nat) (k : String) : Nat :=
  db.reactions.countP fun r => r.post_id == pid && r.reaction == k

/-- The central invariant: the denormalized counters of every post row with
id pid agree with the reaction rows. -/
def countersOk (db : DB) (pid : Nat) : Prop :=
  ∀ p ∈ db.posts, p.id = pid →
    p.likes = (reactionCount db pid "like" : Int)
    ∧ p.dislikes = (reactionCount db pid "dislike" : Int)

/-- Every reaction row of the post stores one of the two legal kind strings. -/
def kindsOk (db : DB) (pid : Nat) : Prop :=
  ∀ r ∈ db.reactions, r.post_id = pid → r.reaction = "like" ∨ r.reaction = "dislike"

/-- Example store for the C1 witness: one fresh post with id 1 owned by user 1. -/
def dbC1 : DB := ⟨[⟨1, "hello", 0, 0, ⟨0, 0⟩, 1⟩], [], 10, ⟨7, 0⟩⟩

/-- Example call sequence for the C1 witness. -/
def callsC1 : List Call :=
  [⟨.like, 1, 1⟩, ⟨.dislike, 1, 1⟩, ⟨.like, 1, 2⟩, ⟨.like, 1, 3⟩, ⟨.dislike, 1, 1⟩]

/-- The post row of dbC1 after running callsC1 (used by the C1 witness). -/
def pC1final : Post := ⟨1, "hello", 0, 1, ⟨0, 0⟩, 1⟩

/-- Store for the C10 witness: post 1 owned by user 1 already liked by the
owner on day 7; the clock now reads day 9. -/
def dbC10 : DB :=
  ⟨[⟨1, "hello", 1, 0, ⟨0, 0⟩, 1⟩], [⟨10, 1, 1, "like", ⟨7, 0⟩, ⟨7, 0⟩⟩], 11, ⟨9, 0⟩⟩

/-- Store after the C10 witness flip: same row flipped to dislike in place. -/
def dbC10' : DB :=
  ⟨[⟨1, "hello", 0, 1, ⟨0, 0⟩, 1⟩], [⟨10, 1, 1, "dislike", ⟨7, 0⟩, ⟨9, 0⟩⟩], 11, ⟨9, 0⟩⟩

/-- The reaction row flipped in the C10 witness. -/
def rC10 : PostReaction := ⟨10, 1, 1, "like", ⟨7, 0⟩, ⟨7, 0⟩⟩

/-- Store used by the C3 failing input: post 1 owned by user 1 with one like
and one dislike, both created on day 5. -/
def dbC3 : DB :=
  ⟨[⟨1, "hello", 0, 0, ⟨0, 0⟩, 1⟩],
   [⟨10, 1, 2, "like", ⟨5, 0⟩, ⟨5, 0⟩⟩, ⟨11, 1, 3, "dislike", ⟨5, 0⟩, ⟨5, 0⟩⟩],
   12, ⟨9, 0⟩⟩

/-- Store used by the C4 failing input: only post 1 exists, owned by user 1. -/
def dbC4 : DB := ⟨[⟨1, "hello", 0, 0, ⟨0, 0⟩, 1⟩], [], 5, ⟨0, 0⟩⟩

/-- Store used by the C7 counterexample: one reaction of post 1 created on
day 5, one second after midnight. -/
def dbC7 : DB :=
  ⟨[⟨1, "hello", 0, 0, ⟨0, 0⟩, 1⟩], [⟨10, 1, 2, "like", ⟨5, 1⟩, ⟨5, 1⟩⟩], 11, ⟨9, 0⟩⟩

/-- Store for the C7 amended witness: one like of post 1 at midnight of
day 5. -/
def dbC7W : DB :=
  ⟨[⟨1, "hello", 0, 0, ⟨0, 0⟩, 1⟩], [⟨10, 1, 2, "like", ⟨5, 0⟩, ⟨5, 0⟩⟩], 11, ⟨9, 0⟩⟩

/-- Stores for the C8 witness (the result is the same for both). -/
def dbC8 : DB := ⟨[], [], 0, ⟨0, 0⟩⟩

/-- Second store for the C8 witness, with a post and a reaction. -/
def dbC8b : DB :=
  ⟨[⟨1, "hello", 1, 0, ⟨0, 0⟩, 1⟩], [⟨3, 1, 1, "like", ⟨2, 0⟩, ⟨2, 0⟩⟩], 4, ⟨2, 0⟩⟩

/-- The store operations a like/dislike call performs, in order. -/
inductive DbOp where
  | selectReaction (post_id user_id : Nat)
  | selectPost (post_id : Nat)
  | updateReaction (reaction_id : Nat)
  | insertReaction (post_id user_id : Nat)
  | commitOp
deriving DecidableEq, Repr

/-- like_post together with the trace of store operations it performs: the
reaction read, the post read, then one update or one insert, then the
commit.  The result component coincides with like_post. -/
def like_post_traced (post_id : Nat) (user : User) (db : DB) :
    Except ApiError DB × List DbOp :=
  let t0 := [DbOp.selectReaction post_id user.id, DbOp.selectPost post_id]
  match get_post_by_id post_id db with
  | none => (.error (.http 404 POST_NOT_FOUND), t0)
  | some post =>
    match get_post_reaction post_id user.id db with
    | some r =>
      if r.reaction == "like" then
        (.error (.http 400 ALREADY_LIKED), t0)
      else
        let t := update_or_create_reaction (some r) "like" post db
        (commit_reaction db t.1 t.2.1 t.2.2,
          t0 ++ [DbOp.updateReaction r.id, DbOp.commitOp])
    | none =>
      let t := update_or_create_reaction none "like" post db
      (commit_reaction db t.1 t.2.1 t.2.2,
        t0 ++ [DbOp.insertReaction post.id post.user_id, DbOp.commitOp])

/-- dislike_post together with its trace of store operations. -/
def dislike_post_traced (post_id : Nat) (user : User) (db : DB) :
    Except ApiError DB × List DbOp :=
  let t0 := [DbOp.selectReaction post_id user.id, DbOp.selectPost post_id]
  match get_post_by_id post_id db with
  | none => (.error (.http 404 POST_NOT_FOUND), t0)
  | some post =>
    match get_post_reaction post_id user.id db with
    | some r =>
      if r.reaction == "dislike" then
        (.error (.http 400 ALREADY_UNLIKED), t0)
      else
        let t := update_or_create_reaction (some r) "dislike" post db
        (commit_reaction db t.1 t.2.1 t.2.2,
          t0 ++ [DbOp.updateReaction r.id, DbOp.commitOp])
    | none =>
      let t := update_or_create_reaction none "dislike" post db
      (commit_reaction db t.1 t.2.1 t.2.2,
        t0 ++ [DbOp.insertReaction post.id post.user_id, DbOp.commitOp])

/-- The repository call of applyReaction, traced. -/
def reactionRepoTraced (k : ReactionKind) (post_id : Nat) (user : User) (db : DB) :
    Except ApiError DB × List DbOp :=
  match k with
  | .like => like_post_traced post_id user db
  | .dislike => dislike_post_traced post_id user db

/-- The route handler of applyReaction, traced: the except-IntegrityError
wrapper performs no further store operation and does not re-run the
repository call. -/
def applyReactionTraced (k : ReactionKind) (post_id : Nat) (user : User) (db : DB) :
    Except ApiError DB × List DbOp :=
  match reactionRepoTraced k post_id user db with
  | (.error .integrityError, t) => (.error (.http 400 (alreadyMsg k)), t)
  | r => r

/-- Number of reaction-table reads in a trace: retrying the read-modify-write
sequence would add a second one. -/
def countReactionSelects (t : List DbOp) : Nat :=
  t.countP fun op => match op with
    | DbOp.selectReaction _ _ => true
    | _ => false

/-- Store used by the C9 counterexample and witness: post 1 owned by user 1
already carries the owner-keyed like row, so user 2's like misses on the
(post 1, user 2) lookup and the insert of (post 1, user 1) violates the
unique key. -/
def dbC9 : DB :=
  ⟨[⟨1, "hello", 1, 0, ⟨0, 0⟩, 1⟩], [⟨10, 1, 1, "like", ⟨7, 0⟩, ⟨7, 0⟩⟩], 11, ⟨7, 0⟩⟩

/-- Store used by the C2 failing input: a fresh post 1 owned by user 1. -/
def dbC2 : DB := ⟨[⟨1, "hello", 0, 0, ⟨0, 0⟩, 1⟩], [], 10, ⟨7, 0⟩⟩

/-- Store after user 2's like in the C2 failing input: the row is keyed by
user 1, the post owner, not by user 2. -/
def dbC2' : DB :=
  ⟨[⟨1, "hello", 1, 0, ⟨0, 0⟩, 1⟩], [⟨10, 1, 1, "like", ⟨7, 0⟩, ⟨7, 0⟩⟩], 11, ⟨7, 0⟩⟩

/-- Store used by the C5 failing input: a fresh post 1 owned by user 1. -/
def dbC5 : DB := ⟨[⟨1, "hello", 0, 0, ⟨0, 0⟩, 1⟩], [], 10, ⟨7, 0⟩⟩

/-- Store after user 2's like in the C5 failing input. -/
def dbC5' : DB :=
  ⟨[⟨1, "hello", 1, 0, ⟨0, 0⟩, 1⟩], [⟨10, 1, 1, "like", ⟨7, 0⟩, ⟨7, 0⟩⟩], 11, ⟨7, 0⟩⟩

/-- Example first call for the C6 witness. -/
def dbC6 : DB := ⟨[⟨1, "hello", 0, 0, ⟨0, 0⟩, 1⟩], [], 10, ⟨7, 0⟩⟩

/-! General list lemmas used throughout. -/

lemma map_eq_self {α : Type} {f : α → α} :
    ∀ {l : List α}, (∀ x ∈ l, f x = x) → l.map f = l
  | [], _ => rfl
  | a :: tl, h => by
    have ha := h a (List.mem_cons_self a tl)
    have htl : ∀ x ∈ tl, f x = x := fun x hx => h x (List.mem_cons_of_mem a hx)
    simp [ha, map_eq_self htl]

lemma map_key_map {α β : Type} (key : α → β) (f : α → α) (h : ∀ x, key (f x) = key x)
    (l : List α) : (l.map f).map key = l.map key := by
  induction l with
  | nil => rfl
  | cons a tl ih => simp [h a, ih]

lemma find?_map_comm {α : Type} (g : α → α) (p : α → Bool) (h : ∀ x, p (g x) = p x) :
    ∀ l : List α, (l.map g).find? p = (l.find? p).map g
  | [] => rfl
  | a :: tl => by
    by_cases hpa : p a = true
    · have hga : p (g a) = true := by rw [h a]; exact hpa
      simp [List.find?_cons_of_pos _ hpa, List.find?_cons_of_pos _ hga]
    · have hpa2 : ¬ p a := by simpa using hpa
      have hga : ¬ p (g a) := by rw [h a]; exact hpa2
      simp [List.find?_cons_of_neg _ hpa2, List.find?_cons_of_neg _ hga,
        find?_map_comm g p h tl]

lemma find?_append_of_none {α : Type} {p : α → Bool} :
    ∀ {l₁ : List α} (l₂ : List α), l₁.find? p = none → (l₁ ++ l₂).find? p = l₂.find? p
  | [], _, _ => rfl
  | a :: tl, l₂, h => by
    by_cases hpa : p a = true
    · rw [List.find?_cons_of_pos _ hpa] at h; exact absurd h (by simp)
    · have hpa2 : ¬ p a := by simpa using hpa
      rw [List.find?_cons_of_neg _ hpa2] at h
      simpa [List.find?_cons_of_neg _ hpa2] using find?_append_of_none l₂ h

lemma filter_map_comm {α : Type} (g : α → α) (p : α → Bool) (h : ∀ x, p (g x) = p x) :
    ∀ l : List α, (l.map g).filter p = (l.filter p).map g
  | [] => rfl
  | a :: tl => by
    by_cases hpa : p a = true
    · have hga : p (g a) = true := by rw [h a]; exact hpa
      simp [List.filter_cons, hpa, hga, filter_map_comm g p h tl]
    · have hga : p (g a) = false := by rw [h a]; simpa using hpa
      simp [List.filter_cons, hga, (by simpa using hpa : p a = false),
        filter_map_comm g p h tl]

lemma nodup_key_inj {α β : Type} (key : α → β) :
    ∀ {l : List α}, (l.map key).Nodup → ∀ {a b : α}, a ∈ l → b ∈ l → key a = key b → a = b := by
  intro l
  induction l with
  | nil => intro _ a b ha; exact absurd ha (List.not_mem_nil a)
  | cons c tl ih =>
    intro hnd a b ha hb hk
    rw [List.map_cons, List.nodup_cons] at hnd
    rcases List.mem_cons.1 ha with rfl | ha' <;> rcases List.mem_cons.1 hb with rfl | hb'
    · rfl
    · exact absurd (hk ▸ List.mem_map_of_mem key hb') hnd.1
    · exact absurd (hk ▸ List.mem_map_of_mem key ha') hnd.1
    · exact ih hnd.2 ha' hb' hk

lemma nodup_append_singleton {α : Type} {l : List α} {a : α}
    (h : l.Nodup) (ha : a ∉ l) : (l ++ [a]).Nodup := by
  induction l with
  | nil => simp
  | cons c tl ih =>
    rw [List.nodup_cons] at h
    have hne : a ≠ c := fun hac => ha (hac ▸ List.mem_cons_self c tl)
    have hna : a ∉ tl := fun hm => ha (List.mem_cons_of_mem c hm)
    rw [List.cons_append, List.nodup_cons]
    refine ⟨?_, ih h.2 hna⟩
    intro hc
    rcases List.mem_append.1 hc with hc1 | hc2
    · exact h.1 hc1
    · have hca : c = a := by simpa using hc2
      exact hne hca.symm

lemma countP_map_update (p : PostReaction → Bool) (g : PostReaction → PostReaction) :
    ∀ (l : List PostReaction) (r : PostReaction), r ∈ l →
      (l.map PostReaction.id).Nodup →
      (l.map fun x => if x.id == r.id then g x else x).countP p + (if p r then 1 else 0)
        = l.countP p + (if p (g r) then 1 else 0) := by
  intro l
  induction l with
  | nil => intro r hr; exact absurd hr (List.not_mem_nil r)
  | cons a tl ih =>
    intro r hr hnd
    rw [List.map_cons, List.nodup_cons] at hnd
    rcases List.mem_cons.1 hr with rfl | hr'
    · have htl : (tl.map fun x => if x.id == r.id then g x else x) = tl := by
        apply map_eq_self
        intro x hx
        have hne : x.id ≠ r.id := by
          intro hxe
          exact hnd.1 (hxe ▸ List.mem_map_of_mem PostReaction.id hx)
        simp [hne]
      have hhead : (if r.id == r.id then g r else r) = g r := by simp
      rw [List.map_cons, hhead, htl, List.countP_cons, List.countP_cons]
      omega
    · have hne : a.id ≠ r.id := by
        intro hae
        exact hnd.1 (hae ▸ List.mem_map_of_mem PostReaction.id hr')
      have hhead : (if a.id == r.id then g a else a) = a := by simp [hne]
      have ih2 := ih r hr' hnd.2
      rw [List.map_cons, hhead, List.countP_cons, List.countP_cons]
      omega

lemma like_post_eq_404 {pid : Nat} {u : User} {db : DB}
    (hp : get_post_by_id pid db = none) :
    like_post pid u db = .error (.http 404 POST_NOT_FOUND) := by
  simp [like_post, hp]

lemma like_post_eq_already {pid : Nat} {u : User} {db : DB} {r : PostReaction} {post : Post}
    (hr : get_post_reaction pid u.id db = some r)
    (hp : get_post_by_id pid db = some post)
    (hg : (r.reaction == "like") = true) :
    like_post pid u db = .error (.http 400 ALREADY_LIKED) := by
  simp [like_post, hr, hp, hg]

lemma like_post_eq_flip {pid : Nat} {u : User} {db : DB} {r : PostReaction} {post : Post}
    (hr : get_post_reaction pid u.id db = some r)
    (hp : get_post_by_id pid db = some post)
    (hg : (r.reaction == "like") = false) :
    like_post pid u db
      = .ok (flipResult db r.id "like"
          { post with likes := post.likes + 1, dislikes := post.dislikes - 1 }) := by
  simp [like_post, hr, hp, hg, update_or_create_reaction, commit_reaction, flipResult]

lemma like_post_eq_insert {pid : Nat} {u : User} {db : DB} {post : Post}
    (hr : get_post_reaction pid u.id db = none)
    (hp : get_post_by_id pid db = some post)
    (hc : (db.reactions.any fun x => x.post_id == post.id && x.user_id == post.user_id)
            = false) :
    like_post pid u db
      = .ok (insertResult db (newRow db post "like") { post with likes := post.likes + 1 }) := by
  simp [like_post, hr, hp, update_or_create_reaction, commit_reaction, newRow, hc,
    insertResult]

lemma like_post_eq_conflict {pid : Nat} {u : User} {db : DB} {post : Post}
    (hr : get_post_reaction pid u.id db = none)
    (hp : get_post_by_id pid db = some post)
    (hc : (db.reactions.any fun x => x.post_id == post.id && x.user_id == post.user_id)
            = true) :
    like_post pid u db = .error .integrityError := by
  simp [like_post, hr, hp, update_or_create_reaction, commit_reaction, newRow, hc]

lemma dislike_post_eq_404 {pid : Nat} {u : User} {db : DB}
    (hp : get_post_by_id pid db = none) :
    dislike_post pid u db = .error (.http 404 POST_NOT_FOUND) := by
  simp [dislike_post, hp]

lemma dislike_post_eq_already {pid : Nat} {u : User} {db : DB} {r : PostReaction} {post : Post}
    (hr : get_post_reaction pid u.id db = some r)
    (hp : get_post_by_id pid db = some post)
    (hg : (r.reaction == "dislike") = true) :
    dislike_post pid u db = .error (.http 400 ALREADY_UNLIKED) := by
  simp [dislike_post, hr, hp, hg]

lemma dislike_post_eq_flip {pid : Nat} {u : User} {db : DB} {r : PostReaction} {post : Post}
    (hr : get_post_reaction pid u.id db = some r)
    (hp : get_post_by_id pid db = some post)
    (hg : (r.reaction == "dislike") = false) :
    dislike_post pid u db
      = .ok (flipResult db r.id "dislike"
          { post with likes := post.likes - 1, dislikes := post.dislikes + 1 }) := by
  simp [dislike_post, hr, hp, hg, update_or_create_reaction, commit_reaction, flipResult]

lemma dislike_post_eq_insert {pid : Nat} {u : User} {db : DB} {post : Post}
    (hr : get_post_reaction pid u.id db = none)
    (hp : get_post_by_id pid db = some post)
    (hc : (db.reactions.any fun x => x.post_id == post.id && x.user_id == post.user_id)
            = false) :
    dislike_post pid u db
      = .ok (insertResult db (newRow db post "dislike")
          { post with dislikes := post.dislikes + 1 }) := by
  simp [dislike_post, hr, hp, update_or_create_reaction, commit_reaction, newRow, hc,
    insertResult]

lemma dislike_post_eq_conflict {pid : Nat} {u : User} {db : DB} {post : Post}
    (hr : get_post_reaction pid u.id db = none)
    (hp : get_post_by_id pid db = some post)
    (hc : (db.reactions.any fun x => x.post_id == post.id && x.user_id == post.user_id)
            = true) :
    dislike_post pid u db = .error .integrityError := by
  simp [dislike_post, hr, hp, update_or_create_reaction, commit_reaction, newRow, hc]

lemma get_post_reaction_some {pid uid : Nat} {db : DB} {r : PostReaction}
    (h : get_post_reaction pid uid db = some r) :
    r ∈ db.reactions ∧ r.user_id = uid ∧ r.post_id = pid := by
  unfold get_post_reaction at h
  have hm := List.mem_of_find?_eq_some h
  have hp := List.find?_some h
  simp only [Bool.and_eq_true, beq_iff_eq] at hp
  exact ⟨hm, hp.1, hp.2⟩

lemma get_post_reaction_none {pid uid : Nat} {db : DB}
    (h : get_post_reaction pid uid db = none) :
    ∀ r ∈ db.reactions, ¬(r.user_id = uid ∧ r.post_id = pid) := by
  unfold get_post_reaction at h
  intro r hr hcontra
  have := List.find?_eq_none.1 h r hr
  simp only [Bool.and_eq_true, beq_iff_eq] at this
  exact this ⟨hcontra.1, hcontra.2⟩

lemma get_post_by_id_some {pid : Nat} {db : DB} {post : Post}
    (h : get_post_by_id pid db = some post) :
    post ∈ db.posts ∧ post.id = pid := by
  unfold get_post_by_id at h
  have hm := List.mem_of_find?_eq_some h
  have hp := List.find?_some h
  simp only [beq_iff_eq] at hp
  exact ⟨hm, hp⟩

lemma like_post_route_ok_iff {pid : Nat} {u : User} {db db' : DB} :
    like_post_route pid u db = .ok db' ↔ like_post pid u db = .ok db' := by
  unfold like_post_route
  cases h : like_post pid u db with
  | ok d => simp
  | error e => cases e <;> simp

lemma dislike_post_route_ok_iff {pid : Nat} {u : User} {db db' : DB} :
    dislike_post_route pid u db = .ok db' ↔ dislike_post pid u db = .ok db' := by
  unfold dislike_post_route
  cases h : dislike_post pid u db with
  | ok d => simp
  | error e => cases e <;> simp

lemma like_post_route_http {pid : Nat} {u : User} {db : DB} {s : Nat} {d : String}
    (h : like_post pid u db = .error (.http s d)) :
    like_post_route pid u db = .error (.http s d) := by
  unfold like_post_route
  rw [h]

lemma like_post_route_integrity {pid : Nat} {u : User} {db : DB}
    (h : like_post pid u db = .error .integrityError) :
    like_post_route pid u db = .error (.http 400 ALREADY_LIKED) := by
  unfold like_post_route
  rw [h]

lemma dislike_post_route_http {pid : Nat} {u : User} {db : DB} {s : Nat} {d : String}
    (h : dislike_post pid u db = .error (.http s d)) :
    dislike_post_route pid u db = .error (.http s d) := by
  unfold dislike_post_route
  rw [h]

lemma dislike_post_route_integrity {pid : Nat} {u : User} {db : DB}
    (h : dislike_post pid u db = .error .integrityError) :
    dislike_post_route pid u db = .error (.http 400 ALREADY_UNLIKED) := by
  unfold dislike_post_route
  rw [h]

lemma like_post_ok_inv {pid : Nat} {u : User} {db db' : DB}
    (h : like_post pid u db = .ok db') :
    ∃ post, get_post_by_id pid db = some post ∧
      ((∃ r, get_post_reaction pid u.id db = some r ∧ (r.reaction == "like") = false ∧
          db' = flipResult db r.id "like"
              { post with likes := post.likes + 1, dislikes := post.dislikes - 1 })
       ∨ (get_post_reaction pid u.id db = none ∧
          (db.reactions.any fun x => x.post_id == post.id && x.user_id == post.user_id)
              = false ∧
          db' = insertResult db (newRow db post "like")
              { post with likes := post.likes + 1 })) := by
  cases hp : get_post_by_id pid db with
  | none => rw [like_post_eq_404 hp] at h; exact absurd h (by simp)
  | some post =>
    refine ⟨post, rfl, ?_⟩
    cases hr : get_post_reaction pid u.id db with
    | some r =>
      by_cases hg : (r.reaction == "like") = true
      · rw [like_post_eq_already hr hp hg] at h; exact absurd h (by simp)
      · have hg2 : (r.reaction == "like") = false := by simpa using hg
        rw [like_post_eq_flip hr hp hg2] at h
        exact Or.inl ⟨r, rfl, hg2, (Except.ok.inj h).symm⟩
    | none =>
      cases hc : (db.reactions.any fun x => x.post_id == post.id && x.user_id == post.user_id)
        with
      | true => rw [like_post_eq_conflict hr hp hc] at h; exact absurd h (by simp)
      | false =>
        rw [like_post_eq_insert hr hp hc] at h
        exact Or.inr ⟨rfl, rfl, (Except.ok.inj h).symm⟩

lemma dislike_post_ok_inv {pid : Nat} {u : User} {db db' : DB}
    (h : dislike_post pid u db = .ok db') :
    ∃ post, get_post_by_id pid db = some post ∧
      ((∃ r, get_post_reaction pid u.id db = some r ∧ (r.reaction == "dislike") = false ∧
          db' = flipResult db r.id "dislike"
              { post with likes := post.likes - 1, dislikes := post.dislikes + 1 })
       ∨ (get_post_reaction pid u.id db = none ∧
          (db.reactions.any fun x => x.post_id == post.id && x.user_id == post.user_id)
              = false ∧
          db' = insertResult db (newRow db post "dislike")
              { post with dislikes := post.dislikes + 1 })) := by
  cases hp : get_post_by_id pid db with
  | none => rw [dislike_post_eq_404 hp] at h; exact absurd h (by simp)
  | some post =>
    refine ⟨post, rfl, ?_⟩
    cases hr : get_post_reaction pid u.id db with
    | some r =>
      by_cases hg : (r.reaction == "dislike") = true
      · rw [dislike_post_eq_already hr hp hg] at h; exact absurd h (by simp)
      · have hg2 : (r.reaction == "dislike") = false := by simpa using hg
        rw [dislike_post_eq_flip hr hp hg2] at h
        exact Or.inl ⟨r, rfl, hg2, (Except.ok.inj h).symm⟩
    | none =>
      cases hc : (db.reactions.any fun x => x.post_id == post.id && x.user_id == post.user_id)
        with
      | true => rw [dislike_post_eq_conflict hr hp hc] at h; exact absurd h (by simp)
      | false =>
        rw [dislike_post_eq_insert hr hp hc] at h
        exact Or.inr ⟨rfl, rfl, (Except.ok.inj h).symm⟩

lemma updP_id (post2 p : Post) : (if p.id == post2.id then post2 else p).id = p.id := by
  by_cases h : p.id = post2.id
  · simp [h]
  · simp [h]

lemma WF_flipResult {db : DB} {rid : Nat} {s : String} {post2 : Post} (hwf : WF db) :
    WF (flipResult db rid s post2) := by
  obtain ⟨h1, h2, h3, h4⟩ := hwf
  refine ⟨?_, ?_, ?_, ?_⟩
  · show ((db.posts.map fun p => if p.id == post2.id then post2 else p).map Post.id).Nodup
    rw [map_key_map Post.id _ (fun p => updP_id post2 p)]
    exact h1
  · show ((db.reactions.map fun x =>
      if x.id == rid then { x with reaction := s, updated_at := db.now } else x).map
        PostReaction.id).Nodup
    rw [map_key_map PostReaction.id _ ?_]
    · exact h2
    · intro x
      by_cases hx : x.id = rid <;> simp [hx]
  · show ((db.reactions.map fun x =>
      if x.id == rid then { x with reaction := s, updated_at := db.now } else x).map
        fun r => (r.post_id, r.user_id)).Nodup
    rw [map_key_map _ _ ?_]
    · exact h3
    · intro x
      by_cases hx : x.id = rid <;> simp [hx]
  · intro r hr
    obtain ⟨x, hx, rfl⟩ := List.mem_map.1 hr
    show (if x.id == rid then { x with reaction := s, updated_at := db.now } else x).id
      < db.next_reaction_id
    by_cases hxe : x.id = rid
    · simpa [hxe] using h4 x hx
    · simpa [hxe] using h4 x hx

lemma WF_insertResult {db : DB} {post post2 : Post} {s : String} (hwf : WF db)
    (hc : (db.reactions.any fun x => x.post_id == post.id && x.user_id == post.user_id)
            = false) :
    WF (insertResult db (newRow db post s) post2) := by
  obtain ⟨h1, h2, h3, h4⟩ := hwf
  have hnokey : ∀ x ∈ db.reactions,
      ¬(x.post_id == post.id && x.user_id == post.user_id) = true := by
    intro x hx hpx
    have hany : (db.reactions.any fun x => x.post_id == post.id && x.user_id == post.user_id)
        = true := List.any_eq_true.2 ⟨x, hx, hpx⟩
    rw [hc] at hany
    exact Bool.false_ne_true hany
  refine ⟨?_, ?_, ?_, ?_⟩
  · show ((db.posts.map fun p => if p.id == post2.id then post2 else p).map Post.id).Nodup
    rw [map_key_map Post.id _ (fun p => updP_id post2 p)]
    exact h1
  · show ((db.reactions ++ [newRow db post s]).map PostReaction.id).Nodup
    rw [List.map_append]
    apply nodup_append_singleton h2
    intro hmem
    obtain ⟨x, hx, hxe⟩ := List.mem_map.1 hmem
    have := h4 x hx
    rw [show (newRow db post s).id = db.next_reaction_id from rfl] at hxe
    omega
  · show ((db.reactions ++ [newRow db post s]).map fun r => (r.post_id, r.user_id)).Nodup
    rw [List.map_append]
    apply nodup_append_singleton h3
    intro hmem
    obtain ⟨x, hx, hxe⟩ := List.mem_map.1 hmem
    have hxe2 : (x.post_id, x.user_id) = (post.id, post.user_id) := hxe
    apply hnokey x hx
    rw [Prod.mk.injEq] at hxe2
    simp [hxe2.1, hxe2.2]
  · intro r hr
    rcases List.mem_append.1 hr with hr1 | hr2
    · have := h4 r hr1
      show r.id < db.next_reaction_id + 1
      omega
    · have hre : r = newRow db post s := by simpa using hr2
      rw [hre]
      show db.next_reaction_id < db.next_reaction_id + 1
      omega

lemma reactionCount_flip (db : DB) (r : PostReaction) (s k : String) (P : Nat) (post2 : Post)
    (hrm : r ∈ db.reactions) (hnd : (db.reactions.map PostReaction.id).Nodup) :
    reactionCount (flipResult db r.id s post2) P k
      + (if r.post_id == P && r.reaction == k then 1 else 0)
      = reactionCount db P k + (if r.post_id == P && s == k then 1 else 0) := by
  have h := countP_map_update (fun x => x.post_id == P && x.reaction == k)
    (fun x => { x with reaction := s, updated_at := db.now }) db.reactions r hrm hnd
  simpa [reactionCount, flipResult] using h

lemma reactionCount_insert (db : DB) (row : PostReaction) (post2 : Post) (P : Nat)
    (k : String) :
    reactionCount (insertResult db row post2) P k
      = reactionCount db P k + (if row.post_id == P && row.reaction == k then 1 else 0) := by
  simp [reactionCount, insertResult, List.countP_append, List.countP_cons]

lemma kindsOk_flip {db : DB} {P : Nat} (r : PostReaction) (s : String) (post2 : Post)
    (hs : s = "like" ∨ s = "dislike") (hk : kindsOk db P) :
    kindsOk (flipResult db r.id s post2) P := by
  intro x2 hmem hpid2
  simp only [flipResult] at hmem
  obtain ⟨x, hx, rfl⟩ := List.mem_map.1 hmem
  by_cases hxe : x.id = r.id
  · simp only [hxe, beq_self_eq_true, if_true]
    exact hs
  · have hcond : (x.id == r.id) = false := by simp [hxe]
    simp only [hcond, Bool.false_eq_true, if_false] at hpid2 ⊢
    exact hk x hx hpid2

lemma kindsOk_insert {db : DB} {P : Nat} (row : PostReaction) (post2 : Post)
    (hs : row.reaction = "like" ∨ row.reaction = "dislike") (hk : kindsOk db P) :
    kindsOk (insertResult db row post2) P := by
  intro x2 hmem hpid2
  simp only [insertResult] at hmem
  rcases List.mem_append.1 hmem with h1 | h2
  · exact hk x2 h1 hpid2
  · have hx2 : x2 = row := by simpa using h2
    rw [hx2]
    exact hs

lemma counters_flip_like {db : DB} {r : PostReaction} {post post2 : Post} {P : Nat}
    (hwf : WF db) (hrm : r ∈ db.reactions) (hrpost : r.post_id = post.id)
    (hpm : post ∈ db.posts) (hg : r.reaction ≠ "like")
    (h2id : post2.id = post.id) (h2l : post2.likes = post.likes + 1)
    (h2d : post2.dislikes = post.dislikes - 1)
    (hc : countersOk db P) (hk : kindsOk db P) :
    countersOk (flipResult db r.id "like" post2) P := by
  intro p2 hmem hid
  simp only [flipResult] at hmem
  obtain ⟨q, hq, rfl⟩ := List.mem_map.1 hmem
  have eL := reactionCount_flip db r "like" "like" P post2 hrm hwf.2.1
  have eD := reactionCount_flip db r "like" "dislike" P post2 hrm hwf.2.1
  by_cases hqe : q.id = post.id
  · have hiftrue : (if q.id == post2.id then post2 else q) = post2 := by
      simp [h2id, hqe]
    rw [hiftrue] at hid ⊢
    have hP : post.id = P := by rw [← h2id]; exact hid
    have hkr : r.reaction = "dislike" := by
      rcases hk r hrm (by rw [hrpost, hP]) with hl | hd
      · exact absurd hl hg
      · exact hd
    have hbL : (r.post_id == P && r.reaction == "like") = false := by simp [hg]
    have hbLg : (r.post_id == P && (("like" : String) == "like")) = true := by
      simp [hrpost, hP]
    have hbD : (r.post_id == P && r.reaction == "dislike") = true := by
      simp [hrpost, hP, hkr]
    have hbDg : (r.post_id == P && (("like" : String) == "dislike")) = false := by simp
    simp only [hbL, hbLg, hbD, hbDg, Bool.false_eq_true, if_false, if_true] at eL eD
    have hcp := hc post hpm hP
    rw [h2l, h2d]
    exact ⟨by omega, by omega⟩
  · have hiffalse : (if q.id == post2.id then post2 else q) = q := by
      simp [h2id, hqe]
    rw [hiffalse] at hid ⊢
    have hPq : q.id = P := hid
    have hpostP : r.post_id ≠ P := by
      rw [hrpost]
      exact fun he => hqe (hPq.trans he.symm)
    have hbL : (r.post_id == P && r.reaction == "like") = false := by simp [hpostP]
    have hbLg : (r.post_id == P && (("like" : String) == "like")) = false := by
      simp [hpostP]
    have hbD : (r.post_id == P && r.reaction == "dislike") = false := by simp [hpostP]
    have hbDg : (r.post_id == P && (("like" : String) == "dislike")) = false := by
      simp [hpostP]
    simp only [hbL, hbLg, hbD, hbDg, Bool.false_eq_true, if_false] at eL eD
    have hcq := hc q hq hPq
    exact ⟨by omega, by omega⟩

lemma counters_flip_dislike {db : DB} {r : PostReaction} {post post2 : Post} {P : Nat}
    (hwf : WF db) (hrm : r ∈ db.reactions) (hrpost : r.post_id = post.id)
    (hpm : post ∈ db.posts) (hg : r.reaction ≠ "dislike")
    (h2id : post2.id = post.id) (h2l : post2.likes = post.likes - 1)
    (h2d : post2.dislikes = post.dislikes + 1)
    (hc : countersOk db P) (hk : kindsOk db P) :
    countersOk (flipResult db r.id "dislike" post2) P := by
  intro p2 hmem hid
  simp only [flipResult] at hmem
  obtain ⟨q, hq, rfl⟩ := List.mem_map.1 hmem
  have eL := reactionCount_flip db r "dislike" "like" P post2 hrm hwf.2.1
  have eD := reactionCount_flip db r "dislike" "dislike" P post2 hrm hwf.2.1
  by_cases hqe : q.id = post.id
  · have hiftrue : (if q.id == post2.id then post2 else q) = post2 := by
      simp [h2id, hqe]
    rw [hiftrue] at hid ⊢
    have hP : post.id = P := by rw [← h2id]; exact hid
    have hkr : r.reaction = "like" := by
      rcases hk r hrm (by rw [hrpost, hP]) with hl | hd
      · exact hl
      · exact absurd hd hg
    have hbL : (r.post_id == P && r.reaction == "like") = true := by
      simp [hrpost, hP, hkr]
    have hbLg : (r.post_id == P && (("dislike" : String) == "like")) = false := by simp
    have hbD : (r.post_id == P && r.reaction == "dislike") = false := by simp [hg]
    have hbDg : (r.post_id == P && (("dislike" : String) == "dislike")) = true := by
      simp [hrpost, hP]
    simp only [hbL, hbLg, hbD, hbDg, Bool.false_eq_true, if_false, if_true] at eL eD
    have hcp := hc post hpm hP
    rw [h2l, h2d]
    exact ⟨by omega, by omega⟩
  · have hiffalse : (if q.id == post2.id then post2 else q) = q := by
      simp [h2id, hqe]
    rw [hiffalse] at hid ⊢
    have hPq : q.id = P := hid
    have hpostP : r.post_id ≠ P := by
      rw [hrpost]
      exact fun he => hqe (hPq.trans he.symm)
    have hbL : (r.post_id == P && r.reaction == "like") = false := by simp [hpostP]
    have hbLg : (r.post_id == P && (("dislike" : String) == "like")) = false := by
      simp [hpostP]
    have hbD : (r.post_id == P && r.reaction == "dislike") = false := by simp [hpostP]
    have hbDg : (r.post_id == P && (("dislike" : String) == "dislike")) = false := by
      simp [hpostP]
    simp only [hbL, hbLg, hbD, hbDg, Bool.false_eq_true, if_false] at eL eD
    have hcq := hc q hq hPq
    exact ⟨by omega, by omega⟩

lemma counters_insert_like {db : DB} {post post2 : Post} {P : Nat}
    (hpm : post ∈ db.posts)
    (h2id : post2.id = post.id) (h2l : post2.likes = post.likes + 1)
    (h2d : post2.dislikes = post.dislikes)
    (hc : countersOk db P) :
    countersOk (insertResult db (newRow db post "like") post2) P := by
  intro p2 hmem hid
  simp only [insertResult] at hmem
  obtain ⟨q, hq, rfl⟩ := List.mem_map.1 hmem
  have eL := reactionCount_insert db (newRow db post "like") post2 P "like"
  have eD := reactionCount_insert db (newRow db post "like") post2 P "dislike"
  by_cases hqe : q.id = post.id
  · have hiftrue : (if q.id == post2.id then post2 else q) = post2 := by
      simp [h2id, hqe]
    rw [hiftrue] at hid ⊢
    have hP : post.id = P := by rw [← h2id]; exact hid
    have hbL : ((newRow db post "like").post_id == P
        && (newRow db post "like").reaction == "like") = true := by
      simp [newRow, hP]
    have hbD : ((newRow db post "like").post_id == P
        && (newRow db post "like").reaction == "dislike") = false := by
      simp [newRow]
    simp only [hbL, hbD, Bool.false_eq_true, if_false, if_true] at eL eD
    have hcp := hc post hpm hP
    rw [h2l, h2d]
    exact ⟨by omega, by omega⟩
  · have hiffalse : (if q.id == post2.id then post2 else q) = q := by
      simp [h2id, hqe]
    rw [hiffalse] at hid ⊢
    have hPq : q.id = P := hid
    have hpostP : post.id ≠ P := fun he => hqe (hPq.trans he.symm)
    have hbL : ((newRow db post "like").post_id == P
        && (newRow db post "like").reaction == "like") = false := by
      simp [newRow, hpostP]
    have hbD : ((newRow db post "like").post_id == P
        && (newRow db post "like").reaction == "dislike") = false := by
      simp [newRow, hpostP]
    simp only [hbL, hbD, Bool.false_eq_true, if_false] at eL eD
    have hcq := hc q hq hPq
    exact ⟨by omega, by omega⟩

lemma counters_insert_dislike {db : DB} {post post2 : Post} {P : Nat}
    (hpm : post ∈ db.posts)
    (h2id : post2.id = post.id) (h2l : post2.likes = post.likes)
    (h2d : post2.dislikes = post.dislikes + 1)
    (hc : countersOk db P) :
    countersOk (insertResult db (newRow db post "dislike") post2) P := by
  intro p2 hmem hid
  simp only [insertResult] at hmem
  obtain ⟨q, hq, rfl⟩ := List.mem_map.1 hmem
  have eL := reactionCount_insert db (newRow db post "dislike") post2 P "like"
  have eD := reactionCount_insert db (newRow db post "dislike") post2 P "dislike"
  by_cases hqe : q.id = post.id
  · have hiftrue : (if q.id == post2.id then post2 else q) = post2 := by
      simp [h2id, hqe]
    rw [hiftrue] at hid ⊢
    have hP : post.id = P := by rw [← h2id]; exact hid
    have hbL : ((newRow db post "dislike").post_id == P
        && (newRow db post "dislike").reaction == "like") = false := by
      simp [newRow]
    have hbD : ((newRow db post "dislike").post_id == P
        && (newRow db post "dislike").reaction == "dislike") = true := by
      simp [newRow, hP]
    simp only [hbL, hbD, Bool.false_eq_true, if_false, if_true] at eL eD
    have hcp := hc post hpm hP
    rw [h2l, h2d]
    exact ⟨by omega, by omega⟩
  · have hiffalse : (if q.id == post2.id then post2 else q) = q := by
      simp [h2id, hqe]
    rw [hiffalse] at hid ⊢
    have hPq : q.id = P := hid
    have hpostP : post.id ≠ P := fun he => hqe (hPq.trans he.symm)
    have hbL : ((newRow db post "dislike").post_id == P
        && (newRow db post "dislike").reaction == "like") = false := by
      simp [newRow, hpostP]
    have hbD : ((newRow db post "dislike").post_id == P
        && (newRow db post "dislike").reaction == "dislike") = false := by
      simp [newRow, hpostP]
    simp only [hbL, hbD, Bool.false_eq_true, if_false] at eL eD
    have hcq := hc q hq hPq
    exact ⟨by omega, by omega⟩

lemma like_post_ok_preserves {pid : Nat} {u : User} {db db' : DB} {P : Nat}
    (h : like_post pid u db = .ok db') (hwf : WF db)
    (hc : countersOk db P) (hk : kindsOk db P) :
    WF db' ∧ countersOk db' P ∧ kindsOk db' P := by
  obtain ⟨post, hp, hcase⟩ := like_post_ok_inv h
  obtain ⟨hpm, hpid⟩ := get_post_by_id_some hp
  rcases hcase with ⟨r, hr, hg, rfl⟩ | ⟨hrnone, hconf, rfl⟩
  · obtain ⟨hrm, hru, hrp⟩ := get_post_reaction_some hr
    have hrpost : r.post_id = post.id := by rw [hrp, hpid]
    have hg2 : r.reaction ≠ "like" := by simpa using hg
    exact ⟨WF_flipResult hwf,
      counters_flip_like hwf hrm hrpost hpm hg2 rfl rfl rfl hc hk,
      kindsOk_flip r "like" _ (Or.inl rfl) hk⟩
  · exact ⟨WF_insertResult hwf hconf,
      counters_insert_like hpm rfl rfl rfl hc,
      kindsOk_insert (newRow db post "like") _ (Or.inl rfl) hk⟩

lemma dislike_post_ok_preserves {pid : Nat} {u : User} {db db' : DB} {P : Nat}
    (h : dislike_post pid u db = .ok db') (hwf : WF db)
    (hc : countersOk db P) (hk : kindsOk db P) :
    WF db' ∧ countersOk db' P ∧ kindsOk db' P := by
  obtain ⟨post, hp, hcase⟩ := dislike_post_ok_inv h
  obtain ⟨hpm, hpid⟩ := get_post_by_id_some hp
  rcases hcase with ⟨r, hr, hg, rfl⟩ | ⟨hrnone, hconf, rfl⟩
  · obtain ⟨hrm, hru, hrp⟩ := get_post_reaction_some hr
    have hrpost : r.post_id = post.id := by rw [hrp, hpid]
    have hg2 : r.reaction ≠ "dislike" := by simpa using hg
    exact ⟨WF_flipResult hwf,
      counters_flip_dislike hwf hrm hrpost hpm hg2 rfl rfl rfl hc hk,
      kindsOk_flip r "dislike" _ (Or.inr rfl) hk⟩
  · exact ⟨WF_insertResult hwf hconf,
      counters_insert_dislike hpm rfl rfl rfl hc,
      kindsOk_insert (newRow db post "dislike") _ (Or.inr rfl) hk⟩

lemma applyReaction_ok_preserves {k : ReactionKind} {pid : Nat} {u : User} {db db' : DB}
    {P : Nat} (h : applyReaction k pid u db = .ok db') (hwf : WF db)
    (hc : countersOk db P) (hk : kindsOk db P) :
    WF db' ∧ countersOk db' P ∧ kindsOk db' P := by
  cases k with
  | like => exact like_post_ok_preserves (like_post_route_ok_iff.1 h) hwf hc hk
  | dislike => exact dislike_post_ok_preserves (dislike_post_route_ok_iff.1 h) hwf hc hk

lemma runCall_preserves {db : DB} {P : Nat} (c : Call)
    (h : WF db ∧ countersOk db P ∧ kindsOk db P) :
    WF (runCall db c) ∧ countersOk (runCall db c) P ∧ kindsOk (runCall db c) P := by
  unfold runCall
  cases happ : applyReaction c.kind c.post_id ⟨c.user_id⟩ db with
  | ok d => exact applyReaction_ok_preserves happ h.1 h.2.1 h.2.2
  | error e => exact h

lemma runCalls_preserves {P : Nat} :
    ∀ (cs : List Call) (db : DB),
      WF db ∧ countersOk db P ∧ kindsOk db P →
      WF (runCalls db cs) ∧ countersOk (runCalls db cs) P ∧ kindsOk (runCalls db cs) P
  | [], _, h => h
  | c :: cs, db, h => by
    have h1 := runCall_preserves c h
    simpa [runCalls, List.foldl_cons] using
      runCalls_preserves cs (runCall db c) (by simpa [runCalls] using h1)

/-! The claim theorems. -/

/-- C1: starting from a well-formed store whose post P has zero counters and
no reaction rows, after every sequence of like_post / dislike_post route
calls (failed calls leave the store unchanged), every post row with id P has
likes equal to the number of PostReaction rows with post_id = P and
reaction = like, and dislikes equal to the number with reaction = dislike. -/
theorem C1_applyReaction_preserves_counters (db : DB) (P : Nat) (calls : List Call)
    (hwf : WF db)
    (hfreshPost : ∀ p ∈ db.posts, p.id = P → p.likes = 0 ∧ p.dislikes = 0)
    (hfreshReactions : ∀ r ∈ db.reactions, r.post_id ≠ P) :
    ∀ p ∈ (runCalls db calls).posts, p.id = P →
      p.likes = (reactionCount (runCalls db calls) P "like" : Int)
      ∧ p.dislikes = (reactionCount (runCalls db calls) P "dislike" : Int) := by
  have hc0 : countersOk db P := by
    intro p hp hid
    have hL : reactionCount db P "like" = 0 := by
      unfold reactionCount
      rw [List.countP_eq_zero]
      intro r hr
      simp [hfreshReactions r hr]
    have hD : reactionCount db P "dislike" = 0 := by
      unfold reactionCount
      rw [List.countP_eq_zero]
      intro r hr
      simp [hfreshReactions r hr]
    rw [hL, hD]
    have hfp := hfreshPost p hp hid
    exact ⟨by omega, by omega⟩
  have hk0 : kindsOk db P := fun r hr hpid => absurd hpid (hfreshReactions r hr)
  exact (runCalls_preserves calls db ⟨hwf, hc0, hk0⟩).2.1

/-- Witness for C1: the theorem applied to a concrete fresh store, a concrete
call sequence and the concrete post row that results. -/
theorem C1_applyReaction_preserves_counters_witness :
    pC1final.likes = (reactionCount (runCalls dbC1 callsC1) 1 "like" : Int)
    ∧ pC1final.dislikes = (reactionCount (runCalls dbC1 callsC1) 1 "dislike" : Int) :=
  C1_applyReaction_preserves_counters dbC1 1 callsC1 (by decide) (by decide) (by decide)
    pC1final (by decide) (by decide)

lemma find_post_mapped {pid : Nat} {l : List Post} {post : Post} (post2 : Post)
    (hp : l.find? (fun p => p.id == pid) = some post) :
    (l.map fun p => if p.id == post2.id then post2 else p).find? (fun p => p.id == pid)
      = some (if post.id == post2.id then post2 else post) := by
  have hpred : ∀ p : Post,
      ((if p.id == post2.id then post2 else p).id == pid) = (p.id == pid) := by
    intro p
    rw [updP_id]
  rw [find?_map_comm (fun p => if p.id == post2.id then post2 else p)
    (fun p => p.id == pid) hpred l, hp]
  rfl

lemma find_reaction_flip {uid pid : Nat} {l : List PostReaction} {r : PostReaction}
    (rid : Nat) (s : String) (n : Timestamp)
    (hr : l.find? (fun x => x.user_id == uid && x.post_id == pid) = some r) :
    (l.map fun x => if x.id == rid then { x with reaction := s, updated_at := n } else x).find?
        (fun x => x.user_id == uid && x.post_id == pid)
      = some (if r.id == rid then { r with reaction := s, updated_at := n } else r) := by
  have hpred : ∀ x : PostReaction,
      ((if x.id == rid then { x with reaction := s, updated_at := n } else x).user_id == uid
        && (if x.id == rid then { x with reaction := s, updated_at := n } else x).post_id
            == pid)
      = (x.user_id == uid && x.post_id == pid) := by
    intro x
    by_cases hx : x.id = rid <;> simp [hx]
  rw [find?_map_comm (fun x => if x.id == rid then { x with reaction := s, updated_at := n }
    else x) (fun x => x.user_id == uid && x.post_id == pid) hpred l, hr]
  rfl

lemma find_reaction_append {uid pid : Nat} {l : List PostReaction} (row : PostReaction)
    (h : l.find? (fun x => x.user_id == uid && x.post_id == pid) = none) :
    (l ++ [row]).find? (fun x => x.user_id == uid && x.post_id == pid)
      = if row.user_id == uid && row.post_id == pid then some row else none := by
  rw [find?_append_of_none [row] h]
  by_cases hrow : (row.user_id == uid && row.post_id == pid) = true
  · rw [if_pos hrow]
    exact List.find?_cons_of_pos _ hrow
  · rw [if_neg hrow]
    have h1 : List.find? (fun x => x.user_id == uid && x.post_id == pid) [row]
        = List.find? (fun x => x.user_id == uid && x.post_id == pid) [] :=
      List.find?_cons_of_neg _ hrow
    exact h1

lemma like_again_after_flip {pid : Nat} {u : User} {db : DB} {r : PostReaction}
    (post2 : Post) (hr : get_post_reaction pid u.id db = some r)
    {post : Post} (hp : get_post_by_id pid db = some post) :
    like_post pid u (flipResult db r.id "like" post2)
      = .error (.http 400 ALREADY_LIKED) := by
  have hr0 : db.reactions.find? (fun x => x.user_id == u.id && x.post_id == pid)
      = some r := hr
  have hfind := find_reaction_flip r.id "like" db.now hr0
  rw [if_pos (show (r.id == r.id) = true by simp)] at hfind
  have hfind2 : get_post_reaction pid u.id (flipResult db r.id "like" post2)
      = some { r with reaction := "like", updated_at := db.now } := hfind
  have hp0 : db.posts.find? (fun p => p.id == pid) = some post := hp
  have hpfind := find_post_mapped post2 hp0
  have hpfind2 : get_post_by_id pid (flipResult db r.id "like" post2)
      = some (if post.id == post2.id then post2 else post) := hpfind
  exact like_post_eq_already hfind2 hpfind2 (by simp)

lemma dislike_again_after_flip {pid : Nat} {u : User} {db : DB} {r : PostReaction}
    (post2 : Post) (hr : get_post_reaction pid u.id db = some r)
    {post : Post} (hp : get_post_by_id pid db = some post) :
    dislike_post pid u (flipResult db r.id "dislike" post2)
      = .error (.http 400 ALREADY_UNLIKED) := by
  have hr0 : db.reactions.find? (fun x => x.user_id == u.id && x.post_id == pid)
      = some r := hr
  have hfind := find_reaction_flip r.id "dislike" db.now hr0
  rw [if_pos (show (r.id == r.id) = true by simp)] at hfind
  have hfind2 : get_post_reaction pid u.id (flipResult db r.id "dislike" post2)
      = some { r with reaction := "dislike", updated_at := db.now } := hfind
  have hp0 : db.posts.find? (fun p => p.id == pid) = some post := hp
  have hpfind := find_post_mapped post2 hp0
  have hpfind2 : get_post_by_id pid (flipResult db r.id "dislike" post2)
      = some (if post.id == post2.id then post2 else post) := hpfind
  exact dislike_post_eq_already hfind2 hpfind2 (by simp)

lemma like_route_again_after_insert {pid : Nat} {u : User} {db : DB} {post post2 : Post}
    (hrnone : get_post_reaction pid u.id db = none)
    (hp : get_post_by_id pid db = some post)
    (h2id : post2.id = post.id) (h2u : post2.user_id = post.user_id) :
    like_post_route pid u (insertResult db (newRow db post "like") post2)
      = .error (.http 400 ALREADY_LIKED) := by
  have hr0 : db.reactions.find? (fun x => x.user_id == u.id && x.post_id == pid)
      = none := hrnone
  have hpid : post.id = pid := (get_post_by_id_some hp).2
  have hp0 : db.posts.find? (fun p => p.id == pid) = some post := hp
  have hpfind := find_post_mapped post2 hp0
  have hpostif : (if post.id == post2.id then post2 else post) = post2 := by
    simp [h2id]
  rw [hpostif] at hpfind
  have hpfind2 : get_post_by_id pid (insertResult db (newRow db post "like") post2)
      = some post2 := hpfind
  have happend := find_reaction_append (newRow db post "like") hr0
  by_cases hu : post.user_id = u.id
  · have hrow : ((newRow db post "like").user_id == u.id
        && (newRow db post "like").post_id == pid) = true := by
      simp [newRow, hu, hpid]
    rw [hrow, if_pos rfl] at happend
    have hfind2 : get_post_reaction pid u.id
        (insertResult db (newRow db post "like") post2)
        = some (newRow db post "like") := happend
    have herr := like_post_eq_already hfind2 hpfind2 (by simp [newRow])
    exact like_post_route_http herr
  · have hrow : ((newRow db post "like").user_id == u.id
        && (newRow db post "like").post_id == pid) = false := by
      simp only [newRow, Bool.and_eq_false_iff]
      left
      simp [hu]
    rw [hrow, if_neg (by simp)] at happend
    have hfind2 : get_post_reaction pid u.id
        (insertResult db (newRow db post "like") post2) = none := happend
    have hconf2 : ((insertResult db (newRow db post "like") post2).reactions.any
        fun x => x.post_id == post2.id && x.user_id == post2.user_id) = true := by
      apply List.any_eq_true.2
      refine ⟨newRow db post "like", ?_, ?_⟩
      · show newRow db post "like" ∈ db.reactions ++ [newRow db post "like"]
        exact List.mem_append.2 (Or.inr (List.mem_singleton.2 rfl))
      · simp [newRow, h2id, h2u]
    have herr := like_post_eq_conflict hfind2 hpfind2 hconf2
    exact like_post_route_integrity herr

lemma dislike_route_again_after_insert {pid : Nat} {u : User} {db : DB} {post post2 : Post}
    (hrnone : get_post_reaction pid u.id db = none)
    (hp : get_post_by_id pid db = some post)
    (h2id : post2.id = post.id) (h2u : post2.user_id = post.user_id) :
    dislike_post_route pid u (insertResult db (newRow db post "dislike") post2)
      = .error (.http 400 ALREADY_UNLIKED) := by
  have hr0 : db.reactions.find? (fun x => x.user_id == u.id && x.post_id == pid)
      = none := hrnone
  have hpid : post.id = pid := (get_post_by_id_some hp).2
  have hp0 : db.posts.find? (fun p => p.id == pid) = some post := hp
  have hpfind := find_post_mapped post2 hp0
  have hpostif : (if post.id == post2.id then post2 else post) = post2 := by
    simp [h2id]
  rw [hpostif] at hpfind
  have hpfind2 : get_post_by_id pid (insertResult db (newRow db post "dislike") post2)
      = some post2 := hpfind
  have happend := find_reaction_append (newRow db post "dislike") hr0
  by_cases hu : post.user_id = u.id
  · have hrow : ((newRow db post "dislike").user_id == u.id
        && (newRow db post "dislike").post_id == pid) = true := by
      simp [newRow, hu, hpid]
    rw [hrow, if_pos rfl] at happend
    have hfind2 : get_post_reaction pid u.id
        (insertResult db (newRow db post "dislike") post2)
        = some (newRow db post "dislike") := happend
    have herr := dislike_post_eq_already hfind2 hpfind2 (by simp [newRow])
    exact dislike_post_route_http herr
  · have hrow : ((newRow db post "dislike").user_id == u.id
        && (newRow db post "dislike").post_id == pid) = false := by
      simp only [newRow, Bool.and_eq_false_iff]
      left
      simp [hu]
    rw [hrow, if_neg (by simp)] at happend
    have hfind2 : get_post_reaction pid u.id
        (insertResult db (newRow db post "dislike") post2) = none := happend
    have hconf2 : ((insertResult db (newRow db post "dislike") post2).reactions.any
        fun x => x.post_id == post2.id && x.user_id == post2.user_id) = true := by
      apply List.any_eq_true.2
      refine ⟨newRow db post "dislike", ?_, ?_⟩
      · show newRow db post "dislike" ∈ db.reactions ++ [newRow db post "dislike"]
        exact List.mem_append.2 (Or.inr (List.mem_singleton.2 rfl))
      · simp [newRow, h2id, h2u]
    have herr := dislike_post_eq_conflict hfind2 hpfind2 hconf2
    exact dislike_post_route_integrity herr

/-- C6: whenever a like_post / dislike_post route call succeeds, repeating the
exact same call fails with status 400 and the ALREADY_LIKED (resp.
ALREADY_UNLIKED) detail, and the rejected call leaves the persisted store
exactly as it was after the first call. -/
theorem C6_idempotent_rejection (k : ReactionKind) (pid : Nat) (u : User) (db db' : DB)
    (h : applyReaction k pid u db = .ok db') :
    applyReaction k pid u db' = .error (.http 400 (alreadyMsg k))
    ∧ runCall db' ⟨k, pid, u.id⟩ = db' := by
  have hmain : applyReaction k pid u db' = .error (.http 400 (alreadyMsg k)) := by
    cases k with
    | like =>
      have hrepo := like_post_route_ok_iff.1 h
      obtain ⟨post, hp, hcase⟩ := like_post_ok_inv hrepo
      rcases hcase with ⟨r, hr, hg, rfl⟩ | ⟨hrnone, hconf, rfl⟩
      · exact like_post_route_http (like_again_after_flip _ hr hp)
      · exact like_route_again_after_insert hrnone hp rfl rfl
    | dislike =>
      have hrepo := dislike_post_route_ok_iff.1 h
      obtain ⟨post, hp, hcase⟩ := dislike_post_ok_inv hrepo
      rcases hcase with ⟨r, hr, hg, rfl⟩ | ⟨hrnone, hconf, rfl⟩
      · exact dislike_post_route_http (dislike_again_after_flip _ hr hp)
      · exact dislike_route_again_after_insert hrnone hp rfl rfl
  refine ⟨hmain, ?_⟩
  have hmain2 : applyReaction k pid ⟨u.id⟩ db' = .error (.http 400 (alreadyMsg k)) := hmain
  unfold runCall
  rw [hmain2]

lemma analyticsDays_spec (q f t : Nat) (v : User) (db : DB) :
    analyticsDays q f t v db
      = if ((db.posts.find? fun p => p.id == q).map Post.user_id) ≠ some v.id
        then .error (.http 400 NOT_ACCESS_ANALYTICS)
        else .ok (((db.reactions.filter fun r =>
            r.post_id == q && Timestamp.le (dateToTs f) r.created_at
              && Timestamp.le r.created_at (dateToTs t)).map
            fun r => dateOf r.created_at).dedup) := by
  unfold analyticsDays get_post_analytics
  by_cases hcond : ((db.posts.find? fun p => p.id == q).map Post.user_id) ≠ some v.id
  · rw [if_pos hcond, if_pos hcond]
    rfl
  · rw [if_neg hcond, if_neg hcond]
    show Except.ok (List.map AnalyticsRow.date _) = _
    rw [List.map_map]
    congr 1
    exact List.map_id _

lemma C10_core {pid : Nat} {u : User} {db : DB} {r : PostReaction} (s : String)
    (post2 : Post) (hwf : WF db)
    (hr : get_post_reaction pid u.id db = some r)
    {post : Post} (hp : get_post_by_id pid db = some post)
    (h2u : post2.user_id = post.user_id) (h2id : post2.id = post.id) :
    (∃ r2 ∈ (flipResult db r.id s post2).reactions, r2.id = r.id
        ∧ r2.post_id = r.post_id ∧ r2.user_id = r.user_id
        ∧ r2.created_at = r.created_at ∧ r2.reaction = s)
    ∧ (∀ x ∈ (flipResult db r.id s post2).reactions, x.id ≠ r.id → x ∈ db.reactions)
    ∧ (flipResult db r.id s post2).reactions.length = db.reactions.length
    ∧ ∀ q f t v, analyticsDays q f t v (flipResult db r.id s post2)
        = analyticsDays q f t v db := by
  obtain ⟨hrm, hru, hrp⟩ := get_post_reaction_some hr
  obtain ⟨hpm, hpid⟩ := get_post_by_id_some hp
  refine ⟨?_, ?_, ?_, ?_⟩
  · refine ⟨if r.id == r.id then { r with reaction := s, updated_at := db.now } else r,
      ?_, ?_⟩
    · exact List.mem_map_of_mem _ hrm
    · rw [if_pos (show (r.id == r.id) = true by simp)]
      exact ⟨rfl, rfl, rfl, rfl, rfl⟩
  · intro x hx hxid
    obtain ⟨y, hy, rfl⟩ := List.mem_map.1 hx
    by_cases hye : y.id = r.id
    · exfalso
      apply hxid
      rw [if_pos (by simp [hye])]
      exact hye
    · rw [if_neg (by simp [hye])]
      exact hy
  · exact List.length_map _ _
  · intro q f t v
    rw [analyticsDays_spec, analyticsDays_spec]
    have howner : (((flipResult db r.id s post2).posts.find? fun p => p.id == q).map
        Post.user_id) = ((db.posts.find? fun p => p.id == q).map Post.user_id) := by
      have hpred : ∀ p : Post,
          ((if p.id == post2.id then post2 else p).id == q) = (p.id == q) := by
        intro p
        rw [updP_id]
      have hcomm : ((flipResult db r.id s post2).posts.find? fun p => p.id == q)
          = ((db.posts.find? fun p => p.id == q).map
              fun p => if p.id == post2.id then post2 else p) :=
        find?_map_comm _ _ hpred db.posts
      rw [hcomm]
      cases hfq : db.posts.find? fun p => p.id == q with
      | none => rfl
      | some w =>
        have hwm := List.mem_of_find?_eq_some hfq
        show some (if w.id == post2.id then post2 else w).user_id = some w.user_id
        by_cases hw : w.id = post2.id
        · have hwpost : w = post := by
            apply nodup_key_inj Post.id hwf.1 hwm hpm
            rw [hw]
            exact h2id
          rw [if_pos (by simp [hw]), hwpost, h2u]
        · rw [if_neg (by simp [hw])]
    have hdays : (((flipResult db r.id s post2).reactions.filter fun x =>
        x.post_id == q && Timestamp.le (dateToTs f) x.created_at
          && Timestamp.le x.created_at (dateToTs t)).map
        fun x => dateOf x.created_at)
        = ((db.reactions.filter fun x =>
            x.post_id == q && Timestamp.le (dateToTs f) x.created_at
              && Timestamp.le x.created_at (dateToTs t)).map
            fun x => dateOf x.created_at) := by
      have hpredF : ∀ x : PostReaction,
          ((if x.id == r.id then { x with reaction := s, updated_at := db.now } else x).post_id
              == q
            && Timestamp.le (dateToTs f)
              (if x.id == r.id then { x with reaction := s, updated_at := db.now }
                else x).created_at
            && Timestamp.le
              (if x.id == r.id then { x with reaction := s, updated_at := db.now }
                else x).created_at (dateToTs t))
          = (x.post_id == q && Timestamp.le (dateToTs f) x.created_at
              && Timestamp.le x.created_at (dateToTs t)) := by
        intro x
        by_cases hx : x.id = r.id <;> simp [hx]
      have hfil : ((flipResult db r.id s post2).reactions.filter fun x =>
          x.post_id == q && Timestamp.le (dateToTs f) x.created_at
            && Timestamp.le x.created_at (dateToTs t))
          = ((db.reactions.filter fun x =>
              x.post_id == q && Timestamp.le (dateToTs f) x.created_at
                && Timestamp.le x.created_at (dateToTs t)).map
              fun x => if x.id == r.id then { x with reaction := s, updated_at := db.now }
                else x) :=
        filter_map_comm _ _ hpredF db.reactions
      rw [hfil]
      apply map_key_map
      intro x
      by_cases hx : x.id = r.id <;> simp [hx, dateOf]
    rw [howner, hdays]

/-- C10: when applyReaction flips an existing reaction, the matched Reaction
row is updated in place: its id, post_id, user_id and created_at are
unchanged and only the kind (and the modification timestamp) changes; no row
is added or removed and every other row is untouched.  Consequently the day
buckets emitted by get_post_analytics are identical before and after the
flip: the flipped reaction is reported under its original date(created_at),
never under the day of the flip. -/
theorem C10_flip_updates_row_in_place (k : ReactionKind) (pid : Nat) (u : User)
    (db db' : DB) (r : PostReaction) (hwf : WF db)
    (hr : get_post_reaction pid u.id db = some r)
    (hok : applyReaction k pid u db = .ok db') :
    (∃ r2 ∈ db'.reactions, r2.id = r.id ∧ r2.post_id = r.post_id ∧ r2.user_id = r.user_id
        ∧ r2.created_at = r.created_at ∧ r2.reaction = kindStr k)
    ∧ (∀ x ∈ db'.reactions, x.id ≠ r.id → x ∈ db.reactions)
    ∧ db'.reactions.length = db.reactions.length
    ∧ ∀ q f t v, analyticsDays q f t v db' = analyticsDays q f t v db := by
  cases k with
  | like =>
    have hrepo := like_post_route_ok_iff.1 hok
    obtain ⟨post, hp, hcase⟩ := like_post_ok_inv hrepo
    rcases hcase with ⟨r', hr', hg, rfl⟩ | ⟨hrnone, hconf, rfl⟩
    · have hrr : r' = r := by
        rw [hr] at hr'
        exact (Option.some.inj hr').symm
      subst hrr
      exact C10_core "like" _ hwf hr hp rfl rfl
    · rw [hr] at hrnone
      exact absurd hrnone (by simp)
  | dislike =>
    have hrepo := dislike_post_route_ok_iff.1 hok
    obtain ⟨post, hp, hcase⟩ := dislike_post_ok_inv hrepo
    rcases hcase with ⟨r', hr', hg, rfl⟩ | ⟨hrnone, hconf, rfl⟩
    · have hrr : r' = r := by
        rw [hr] at hr'
        exact (Option.some.inj hr').symm
      subst hrr
      exact C10_core "dislike" _ hwf hr hp rfl rfl
    · rw [hr] at hrnone
      exact absurd hrnone (by simp)

/-- Witness for C10: a concrete dislike flip on day 9 of a like created on
day 7. -/
theorem C10_flip_updates_row_in_place_witness :
    (∃ r2 ∈ dbC10'.reactions, r2.id = rC10.id ∧ r2.post_id = rC10.post_id
        ∧ r2.user_id = rC10.user_id ∧ r2.created_at = rC10.created_at
        ∧ r2.reaction = kindStr .dislike)
    ∧ (∀ x ∈ dbC10'.reactions, x.id ≠ rC10.id → x ∈ dbC10.reactions)
    ∧ dbC10'.reactions.length = dbC10.reactions.length
    ∧ ∀ q f t v, analyticsDays q f t v dbC10' = analyticsDays q f t v dbC10 :=
  C10_flip_updates_row_in_place .dislike 1 ⟨1⟩ dbC10 dbC10' rC10 (by decide) (by decide)
    (by decide)

/-- C3 (code behavior at the failing input): with exactly one like and one
dislike on day 5, the emitted bucket reports likes = 2 and dislikes = 2,
because COUNT over CASE WHEN ... ELSE 0 counts every non-NULL value, i.e.
every row of the group, under both fields. -/
theorem C3_count_case_counts_every_row :
    get_post_analytics 1 0 9 ⟨1⟩ dbC3 = .ok [⟨5, 2, 2⟩]
    ∧ (dbC3.reactions.filter fun r => r.reaction == "like").length = 1
    ∧ (dbC3.reactions.filter fun r => r.reaction == "dislike").length = 1 := by
  decide

/-- C4 (code behavior at the failing input): requesting analytics for the
missing post 42 yields the 400 ownership error instead of a 404 NotFound;
the non-owner and owner cases behave as the claim says. -/
theorem C4_missing_post_yields_forbidden :
    get_post_analytics 42 0 10 ⟨1⟩ dbC4 = .error (.http 400 NOT_ACCESS_ANALYTICS)
    ∧ (∀ p ∈ dbC4.posts, p.id ≠ 42)
    ∧ get_post_analytics 1 0 10 ⟨2⟩ dbC4 = .error (.http 400 NOT_ACCESS_ANALYTICS)
    ∧ get_post_analytics 1 0 10 ⟨1⟩ dbC4 = .ok [] := by
  decide

/-- C7 counterexample: the post has exactly one reaction and its calendar day
is 5, inside the queried range [5, 5], yet get_post_analytics returns no
bucket: the filter compares the raw created_at against midnight of date_to,
so the upper end is not date-inclusive. -/
theorem C7_day_boundary_counterexample :
    (dbC7.reactions.map fun r => (r.post_id, dateOf r.created_at)) = [(1, 5)]
    ∧ get_post_analytics 1 5 5 ⟨1⟩ dbC7 = .ok [] := by
  decide

/-- C7 amended: a successful get_post_analytics call emits exactly the days
of the reactions of the post whose raw created_at lies between midnight of
date_from and midnight of date_to; every emitted day is backed by at least
one such reaction (no zero-filled buckets) and the result is empty when no
reaction lies in that window. -/
theorem C7_window_characterization (pid f t : Nat) (u : User) (db : DB)
    (out : List AnalyticsRow)
    (h : get_post_analytics pid f t u db = .ok out) :
    (∀ row ∈ out, ∃ r ∈ db.reactions, r.post_id = pid
        ∧ Timestamp.le (dateToTs f) r.created_at = true
        ∧ Timestamp.le r.created_at (dateToTs t) = true
        ∧ dateOf r.created_at = row.date)
    ∧ (∀ r ∈ db.reactions, r.post_id = pid →
        Timestamp.le (dateToTs f) r.created_at = true →
        Timestamp.le r.created_at (dateToTs t) = true →
        ∃ row ∈ out, row.date = dateOf r.created_at)
    ∧ ((∀ r ∈ db.reactions, r.post_id = pid →
        Timestamp.le (dateToTs f) r.created_at = true →
        Timestamp.le r.created_at (dateToTs t) = true → False) → out = []) := by
  unfold get_post_analytics at h
  by_cases hcond : ((db.posts.find? fun p => p.id == pid).map Post.user_id) ≠ some u.id
  · rw [if_pos hcond] at h
    exact absurd h (by simp)
  · rw [if_neg hcond] at h
    have hout := Except.ok.inj h
    subst hout
    refine ⟨?_, ?_, ?_⟩
    · intro row hrow
      obtain ⟨d, hd, rfl⟩ := List.mem_map.1 hrow
      have hd2 := List.mem_dedup.1 hd
      obtain ⟨r, hrmem, hdate⟩ := List.mem_map.1 hd2
      have hrf := List.mem_filter.1 hrmem
      have hpred := hrf.2
      simp only [Bool.and_eq_true, beq_iff_eq] at hpred
      exact ⟨r, hrf.1, hpred.1.1, hpred.1.2, hpred.2, hdate⟩
    · intro r hmem hpid hf ht
      have hpred : (r.post_id == pid && Timestamp.le (dateToTs f) r.created_at
          && Timestamp.le r.created_at (dateToTs t)) = true := by
        simp only [Bool.and_eq_true, beq_iff_eq]
        exact ⟨⟨hpid, hf⟩, ht⟩
      have hrmem : r ∈ db.reactions.filter fun x => x.post_id == pid
          && Timestamp.le (dateToTs f) x.created_at
          && Timestamp.le x.created_at (dateToTs t) :=
        List.mem_filter.2 ⟨hmem, hpred⟩
      have hdmem : dateOf r.created_at ∈ ((db.reactions.filter fun x => x.post_id == pid
          && Timestamp.le (dateToTs f) x.created_at
          && Timestamp.le x.created_at (dateToTs t)).map
            fun x => dateOf x.created_at).dedup :=
        List.mem_dedup.2 (List.mem_map_of_mem _ hrmem)
      exact ⟨_, List.mem_map_of_mem _ hdmem, rfl⟩
    · intro hnone
      have hrows : (db.reactions.filter fun x => x.post_id == pid
          && Timestamp.le (dateToTs f) x.created_at
          && Timestamp.le x.created_at (dateToTs t)) = [] := by
        rw [List.filter_eq_nil_iff]
        intro r hr hp2
        simp only [Bool.and_eq_true, beq_iff_eq] at hp2
        exact hnone r hr hp2.1.1 hp2.1.2 hp2.2
      rw [hrows]
      rfl

/-- Witness for the amended C7 theorem at a concrete store and range. -/
theorem C7_window_characterization_witness :
    (∀ row ∈ ([⟨5, 1, 1⟩] : List AnalyticsRow), ∃ r ∈ dbC7W.reactions, r.post_id = 1
        ∧ Timestamp.le (dateToTs 0) r.created_at = true
        ∧ Timestamp.le r.created_at (dateToTs 9) = true
        ∧ dateOf r.created_at = row.date)
    ∧ (∀ r ∈ dbC7W.reactions, r.post_id = 1 →
        Timestamp.le (dateToTs 0) r.created_at = true →
        Timestamp.le r.created_at (dateToTs 9) = true →
        ∃ row ∈ ([⟨5, 1, 1⟩] : List AnalyticsRow), row.date = dateOf r.created_at)
    ∧ ((∀ r ∈ dbC7W.reactions, r.post_id = 1 →
        Timestamp.le (dateToTs 0) r.created_at = true →
        Timestamp.le r.created_at (dateToTs 9) = true → False)
        → ([⟨5, 1, 1⟩] : List AnalyticsRow) = []) :=
  C7_window_characterization 1 0 9 ⟨1⟩ dbC7W [⟨5, 1, 1⟩] (by decide)

/-- C8: when start_date is later than end_date, the analytics route fails
with 400 INVALID_DATE_RANGE, and the answer is the same whatever the store
holds: the repository - and with it any post lookup or reaction read - is
never reached. -/
theorem C8_invalid_range_rejected_before_store (pid s e : Nat) (u : User) (db db2 : DB)
    (h : e < s) :
    get_post_likes_dislikes pid s e u db = .error (.http 400 INVALID_DATE_RANGE)
    ∧ get_post_likes_dislikes pid s e u db = get_post_likes_dislikes pid s e u db2 := by
  unfold get_post_likes_dislikes
  rw [if_pos h, if_pos h]
  exact ⟨rfl, rfl⟩

/-- Witness for C8 at the reversed range [9, 5]. -/
theorem C8_invalid_range_rejected_before_store_witness :
    get_post_likes_dislikes 1 9 5 ⟨1⟩ dbC8 = .error (.http 400 INVALID_DATE_RANGE)
    ∧ get_post_likes_dislikes 1 9 5 ⟨1⟩ dbC8
        = get_post_likes_dislikes 1 9 5 ⟨1⟩ dbC8b :=
  C8_invalid_range_rejected_before_store 1 9 5 ⟨1⟩ dbC8 dbC8b (by decide)

lemma like_post_traced_fst (pid : Nat) (u : User) (db : DB) :
    (like_post_traced pid u db).1 = like_post pid u db := by
  unfold like_post_traced like_post
  cases hp : get_post_by_id pid db with
  | none => rfl
  | some post =>
    cases hr : get_post_reaction pid u.id db with
    | none => rfl
    | some r =>
      by_cases hg : (r.reaction == "like") = true
      · simp [hg]
      · simp [hg]

lemma dislike_post_traced_fst (pid : Nat) (u : User) (db : DB) :
    (dislike_post_traced pid u db).1 = dislike_post pid u db := by
  unfold dislike_post_traced dislike_post
  cases hp : get_post_by_id pid db with
  | none => rfl
  | some post =>
    cases hr : get_post_reaction pid u.id db with
    | none => rfl
    | some r =>
      by_cases hg : (r.reaction == "dislike") = true
      · simp [hg]
      · simp [hg]

lemma countReactionSelects_like (pid : Nat) (u : User) (db : DB) :
    countReactionSelects (like_post_traced pid u db).2 = 1 := by
  unfold like_post_traced
  cases hp : get_post_by_id pid db with
  | none => simp [countReactionSelects]
  | some post =>
    cases hr : get_post_reaction pid u.id db with
    | none => simp [countReactionSelects]
    | some r =>
      by_cases hg : (r.reaction == "like") = true
      · simp [hg, countReactionSelects]
      · simp [hg, countReactionSelects]

lemma countReactionSelects_dislike (pid : Nat) (u : User) (db : DB) :
    countReactionSelects (dislike_post_traced pid u db).2 = 1 := by
  unfold dislike_post_traced
  cases hp : get_post_by_id pid db with
  | none => simp [countReactionSelects]
  | some post =>
    cases hr : get_post_reaction pid u.id db with
    | none => simp [countReactionSelects]
    | some r =>
      by_cases hg : (r.reaction == "dislike") = true
      · simp [hg, countReactionSelects]
      · simp [hg, countReactionSelects]

/-- C9 counterexample: an invocation whose Reaction insert fails with the
unique-key ConstraintViolation.  The route answers 400 ALREADY_LIKED and its
trace holds exactly one reaction-table read: the read-modify-write sequence
ran once and was not retried, while the raw error was also not propagated. -/
theorem C9_no_retry_counterexample :
    like_post_traced 1 ⟨2⟩ dbC9
      = (.error .integrityError,
         [DbOp.selectReaction 1 2, DbOp.selectPost 1, DbOp.insertReaction 1 1,
          DbOp.commitOp])
    ∧ applyReactionTraced .like 1 ⟨2⟩ dbC9
      = (.error (.http 400 ALREADY_LIKED),
         [DbOp.selectReaction 1 2, DbOp.selectPost 1, DbOp.insertReaction 1 1,
          DbOp.commitOp])
    ∧ countReactionSelects
        [DbOp.selectReaction 1 2, DbOp.selectPost 1, DbOp.insertReaction 1 1,
         DbOp.commitOp] = 1 := by
  decide

/-- C9 amended: when the repository call of applyReaction fails with the raw
IntegrityError of the unique (post_id, user_id) key, the route maps it to
400 ALREADY_LIKED / ALREADY_UNLIKED over the unchanged trace - the
read-modify-write sequence is not retried (the trace holds exactly one
reaction read) and the raw persistence error does not reach the caller. -/
theorem C9_conflict_mapped_without_retry (k : ReactionKind) (pid : Nat) (u : User)
    (db : DB) (h : (reactionRepoTraced k pid u db).1 = .error .integrityError) :
    applyReactionTraced k pid u db
      = (.error (.http 400 (alreadyMsg k)), (reactionRepoTraced k pid u db).2)
    ∧ countReactionSelects (reactionRepoTraced k pid u db).2 = 1
    ∧ applyReaction k pid u db = .error (.http 400 (alreadyMsg k)) := by
  refine ⟨?_, ?_, ?_⟩
  · unfold applyReactionTraced
    cases hrep : reactionRepoTraced k pid u db with
    | mk res t =>
      rw [hrep] at h
      simp only at h
      rw [h]
  · cases k with
    | like => exact countReactionSelects_like pid u db
    | dislike => exact countReactionSelects_dislike pid u db
  · cases k with
    | like =>
      have hre : like_post pid u db = .error .integrityError := by
        rw [← like_post_traced_fst]
        exact h
      exact like_post_route_integrity hre
    | dislike =>
      have hre : dislike_post pid u db = .error .integrityError := by
        rw [← dislike_post_traced_fst]
        exact h
      exact dislike_post_route_integrity hre

/-- Witness for the amended C9 theorem at the concrete conflicting store. -/
theorem C9_conflict_mapped_without_retry_witness :
    applyReactionTraced .like 1 ⟨2⟩ dbC9
      = (.error (.http 400 (alreadyMsg .like)), (reactionRepoTraced .like 1 ⟨2⟩ dbC9).2)
    ∧ countReactionSelects (reactionRepoTraced .like 1 ⟨2⟩ dbC9).2 = 1
    ∧ applyReaction .like 1 ⟨2⟩ dbC9 = .error (.http 400 (alreadyMsg .like)) :=
  C9_conflict_mapped_without_retry .like 1 ⟨2⟩ dbC9 (by decide)

/-- C2 (code behavior at the failing input): user 2 likes the fresh post of
user 1 and the inserted Reaction row is keyed by user 1, the owner; the
distinct user 3's like then fails with 400 ALREADY_LIKED (the unique-key
violation mapped by the route), and likes stays at 1, not 2. -/
theorem C2_two_users_cannot_both_like :
    applyReaction .like 1 ⟨2⟩ dbC2 = .ok dbC2'
    ∧ dbC2'.reactions.map PostReaction.user_id = [1]
    ∧ applyReaction .like 1 ⟨3⟩ dbC2' = .error (.http 400 ALREADY_LIKED)
    ∧ runCall dbC2' ⟨.like, 1, 3⟩ = dbC2'
    ∧ dbC2'.posts.map Post.likes = [1] := by
  decide

/-- C5 (code behavior at the failing input): user 2 likes the fresh post of
user 1, then dislikes it.  The dislike finds no (post 1, user 2) row - the
like was keyed by the owner - so it tries to insert another owner-keyed row,
hits the unique key and fails with 400 ALREADY_UNLIKED; dislikes stays 0 and
no Reaction row for (post 1, user 2) exists at any point. -/
theorem C5_like_then_dislike_fails_for_non_owner :
    applyReaction .like 1 ⟨2⟩ dbC5 = .ok dbC5'
    ∧ applyReaction .dislike 1 ⟨2⟩ dbC5' = .error (.http 400 ALREADY_UNLIKED)
    ∧ runCall dbC5' ⟨.dislike, 1, 2⟩ = dbC5'
    ∧ dbC5'.posts.map Post.dislikes = [0]
    ∧ (dbC5'.reactions.filter fun r => r.user_id == 2).length = 0 := by
  decide

/-- Witness for C6: a concrete successful like whose repetition is rejected
with ALREADY_LIKED and leaves the store unchanged. -/
theorem C6_idempotent_rejection_witness :
    applyReaction .like 1 ⟨1⟩
        ⟨[⟨1, "hello", 1, 0, ⟨0, 0⟩, 1⟩], [⟨10, 1, 1, "like", ⟨7, 0⟩, ⟨7, 0⟩⟩], 11, ⟨7, 0⟩⟩
      = .error (.http 400 (alreadyMsg .like))
    ∧ runCall ⟨[⟨1, "hello", 1, 0, ⟨0, 0⟩, 1⟩], [⟨10, 1, 1, "like", ⟨7, 0⟩, ⟨7, 0⟩⟩], 11,
        ⟨7, 0⟩⟩ ⟨.like, 1, 1⟩
      = ⟨[⟨1, "hello", 1, 0, ⟨0, 0⟩, 1⟩], [⟨10, 1, 1, "like", ⟨7, 0⟩, ⟨7, 0⟩⟩], 11, ⟨7, 0⟩⟩ :=
  C6_idempotent_rejection .like 1 ⟨1⟩ dbC6 _ (by decide)

end SocialNetwork
